import Mathlib

/-!
Verification of the GrooveGalaxy combat/economy core against its specification.

The definitions below are a shallow embedding of `game.js` (class `Game`):
pure data and state-passing functions mirroring the relevant methods.
JavaScript numbers are idealized as exact rationals (`ℚ`) or integers;
presentation-only state (popups, particles, sounds, canvas) is omitted.
-/

namespace GrooveGalaxy

/-! ## Pattern-editing economy

Embedding of the alien-budget economy: `Game.toggleGridCell`,
`Game.loadPreset`, `Game.clearGrid`, `Game.selectCard` (the wave-advance
path after a card is chosen) and `Game.restartGame`.  The grid has
`gridRows = 3` rows and `gridCols = 16` columns; `alienCosts = [3,2,1,2,4]`
with `alienCosts[row] || 1` as the effective cost.
-/

/-- A grid cell: (row, column). -/
abbrev Cell := Fin 3 × Fin 16

/-- `this.alienCosts` from the constructor. -/
def alienCosts : List Nat := [3, 2, 1, 2, 4]

/-- `this.alienCosts[row] || 1` (rows 0..2 have nonzero costs, so `|| 1` never fires). -/
def costOf (row : Fin 3) : Nat := alienCosts.getD row.val 1

/-- An alien entity as pushed by `toggleGridCell`/`loadPreset`/`respawnAliens`
(position from `cellWidth = 50`, `cellHeight = 40`, `gridYOffset = 100`;
hp-related fields are omitted, no claim depends on them). -/
structure Alien where
  row : Fin 3
  col : Fin 16
  x : ℚ
  y : ℚ
  alive : Bool
  evolved : Bool
  damage : Nat
deriving DecidableEq, Repr

/-- The alien object literal pushed when a cell is placed. -/
def mkAlien (row : Fin 3) (col : Fin 16) (isEvolved : Bool) : Alien :=
  { row := row
    col := col
    x := (col.val : ℚ) * 50 + 50 / 2
    y := (row.val : ℚ) * 40 + 100 + 40 / 2
    alive := true
    evolved := isEvolved
    damage := if isEvolved then 2 else 0 }

/-- The slice of `Game` state touched by the pattern-editing economy. -/
structure EconState where
  grid : Cell → Bool
  aliens : List Alien
  alienBudget : Nat
  alienBudgetMax : Nat
  currentWave : Nat
  evolvedCells : Cell → Bool
  budgetShakeTimer : Nat

/-- The initial economy state (wave 1, budget 8/8, empty grid). -/
def initState : EconState :=
  { grid := fun _ => false
    aliens := []
    alienBudget := 8
    alienBudgetMax := 8
    currentWave := 1
    evolvedCells := fun _ => false
    budgetShakeTimer := 0 }

/-- `Game.toggleGridCell(row, col)`. -/
def toggleGridCell (s : EconState) (row : Fin 3) (col : Fin 16) : EconState :=
  if s.grid (row, col) then
    -- Remove from grid - REFUND BUDGET (clamped at alienBudgetMax)
    let cost := costOf row
    { s with
      grid := Function.update s.grid (row, col) false
      aliens := s.aliens.filter fun a => !(decide (a.row = row ∧ a.col = col))
      alienBudget := min (s.alienBudget + cost) s.alienBudgetMax
      evolvedCells := Function.update s.evolvedCells (row, col) false }
  else
    let cost := costOf row
    if s.alienBudget < cost then
      -- Cannot afford: only the budget shake timer is set
      { s with budgetShakeTimer := 20 }
    else
      { s with
        grid := Function.update s.grid (row, col) true
        aliens := s.aliens ++ [mkAlien row col (s.evolvedCells (row, col))]
        alienBudget := s.alienBudget - cost }

/-- `Game.clearGrid()`. -/
def clearGrid (s : EconState) : EconState :=
  { s with grid := fun _ => false, aliens := [], alienBudget := s.alienBudgetMax }

/-- Cells in the row-major order used by `respawnAliens` (row outer, col inner). -/
def cellsRowMajor : List Cell :=
  (List.finRange 3).flatMap fun r => (List.finRange 16).map fun c => (r, c)

/-- Cells in the column-major order used by `loadPreset` (col outer, row inner). -/
def cellsColMajor : List Cell :=
  (List.finRange 16).flatMap fun c => (List.finRange 3).map fun r => (r, c)

/-- `Game.respawnAliens()` restricted to the economy slice: rebuild the aliens
list from the grid pattern (budget fields untouched). -/
def respawnAliens (s : EconState) : EconState :=
  { s with
    aliens := cellsRowMajor.filterMap fun p =>
      if s.grid p then some (mkAlien p.1 p.2 (s.evolvedCells p)) else none }

/-- One cell of the `loadPreset` double loop: place if the pattern has it and
the budget allows. -/
def loadPresetCell (pattern : Cell → Bool) (s : EconState) (p : Cell) : EconState :=
  if pattern p then
    let cost := costOf p.1
    if cost ≤ s.alienBudget then
      { s with
        grid := Function.update s.grid p true
        aliens := s.aliens ++ [mkAlien p.1 p.2 (s.evolvedCells p)]
        alienBudget := s.alienBudget - cost }
    else s
  else s

/-- `Game.loadPreset(pattern)`: clear, then fill left to right respecting budget. -/
def loadPreset (pattern : Cell → Bool) (s : EconState) : EconState :=
  cellsColMajor.foldl (loadPresetCell pattern) (clearGrid s)

/-- `Game.selectCard` (wave-advance path), economy slice.  `applyUpgrade` may
alter the grid pattern (the mirrorBeat card does); it never touches the wave
counter or the budget fields, so it is abstracted as `cardEffect`. -/
def selectCardGen (cardEffect : (Cell → Bool) → Cell → Bool) (s : EconState) : EconState :=
  let s1 := { s with grid := cardEffect s.grid }
  let w := s.currentWave + 1
  let m := min 24 (8 + (w - 1) * 2)
  respawnAliens { s1 with currentWave := w, alienBudgetMax := m, alienBudget := m }

/-- `selectCard` with a card that does not touch the grid (e.g. hpBoost). -/
def selectCardPlain (s : EconState) : EconState := selectCardGen id s

/-- `Game.restartGame()`, economy slice: wave 1, budget 8/8, evolution cleared,
**grid pattern retained**, aliens respawned from the pattern. -/
def restartGame (s : EconState) : EconState :=
  respawnAliens
    { s with
      currentWave := 1
      alienBudget := 8
      alienBudgetMax := 8
      evolvedCells := fun _ => false }

/-- Total cost of all placed cells. -/
def placedSum (s : EconState) : Nat :=
  (cellsRowMajor.map fun p => if s.grid p then costOf p.1 else 0).sum

/-- States reachable through all five public economy operations. -/
inductive ReachableFull : EconState → Prop
  | init : ReachableFull initState
  | toggle {s} (r : Fin 3) (c : Fin 16) : ReachableFull s → ReachableFull (toggleGridCell s r c)
  | preset {s} (pattern : Cell → Bool) : ReachableFull s → ReachableFull (loadPreset pattern s)
  | clear {s} : ReachableFull s → ReachableFull (clearGrid s)
  | card {s} : ReachableFull s → ReachableFull (selectCardPlain s)
  | restart {s} : ReachableFull s → ReachableFull (restartGame s)

/-- States reachable through the pattern-editing operations alone
(no wave advance, no restart). -/
inductive ReachableEdit : EconState → Prop
  | init : ReachableEdit initState
  | toggle {s} (r : Fin 3) (c : Fin 16) : ReachableEdit s → ReachableEdit (toggleGridCell s r c)
  | preset {s} (pattern : Cell → Bool) : ReachableEdit s → ReachableEdit (loadPreset pattern s)
  | clear {s} : ReachableEdit s → ReachableEdit (clearGrid s)

/-! ## Wave-scaling table: `Game.updateAIForWave` -/

/-- The AI parameters set by `updateAIForWave` (boss-branch side effects on
defender speed and boss timers are outside the claimed tuple). -/
structure AIParams where
  shotDelay : Nat
  aiAccuracy : ℚ
  aiShotsPerTurn : Nat
  defenderMaxHP : Nat
deriving DecidableEq, Repr

/-- `Game.updateAIForWave()` as a pure function of the wave number. -/
def updateAIForWave (wave : Nat) : AIParams :=
  if wave = 1 then ⟨1500, 3/10, 1, 60⟩
  else if wave ≤ 2 then ⟨1200, 4/10, 1, 60 + (wave - 1) * 15⟩
  else if wave = 3 then ⟨900, 5/10, 1, 60 + (wave - 1) * 15⟩
  else if wave = 4 then ⟨600, 65/100, 1, 60 + (wave - 1) * 15⟩
  else if wave % 5 = 0 then ⟨400, 8/10, 2, 60 + (wave - 1) * 15⟩
  else if 10 ≤ wave then ⟨200, 9/10, 3, 60 + (wave - 1) * 15⟩
  else ⟨350, 85/100, 2, 60 + (wave - 1) * 15⟩

/-! ## Economy lemmas -/

/-- Exchanging one value of the summed function over a duplicate-free list:
`Σ map g + f p = Σ map f + g p` when `f` and `g` agree away from `p`. -/
theorem sum_map_exchange {α : Type} [DecidableEq α] :
    ∀ (l : List α) (f g : α → Nat) (p : α), p ∈ l → l.Nodup →
      (∀ q ∈ l, q ≠ p → f q = g q) →
      (l.map g).sum + f p = (l.map f).sum + g p := by
  intro l
  induction l with
  | nil => intro f g p hp _ _; simp at hp
  | cons a t ih =>
    intro f g p hp hnd hfg
    rcases List.mem_cons.mp hp with rfl | hpt
    · have hat : p ∉ t := (List.nodup_cons.mp hnd).1
      have hmap : t.map f = t.map g := by
        refine List.map_congr_left fun q hq => ?_
        exact hfg q (List.mem_cons_of_mem p hq) (fun hqp => hat (hqp ▸ hq))
      simp only [List.map_cons, List.sum_cons, hmap]
      omega
    · have ha : a ≠ p := by
        rintro rfl
        exact (List.nodup_cons.mp hnd).1 hpt
      have hfa : f a = g a := hfg a (List.mem_cons_self a t) ha
      have hrec := ih f g p hpt (List.nodup_cons.mp hnd).2
        (fun q hq hqp => hfg q (List.mem_cons_of_mem a hq) hqp)
      simp only [List.map_cons, List.sum_cons, hfa]
      omega

theorem cellsRowMajor_nodup : cellsRowMajor.Nodup := by decide

theorem cellsColMajor_nodup : cellsColMajor.Nodup := by decide

theorem cellsRowMajor_complete : ∀ p : Cell, p ∈ cellsRowMajor := by decide

/-- Placing a previously empty cell raises the placed-cost sum by its cost. -/
theorem placedSum_place {s : EconState} {p : Cell} (h : s.grid p = false)
    (t : EconState) (ht : t.grid = Function.update s.grid p true) :
    placedSum t = placedSum s + costOf p.1 := by
  have hx := sum_map_exchange cellsRowMajor
    (fun q => if t.grid q then costOf q.1 else 0)
    (fun q => if s.grid q then costOf q.1 else 0)
    p (cellsRowMajor_complete p) cellsRowMajor_nodup
    (fun q _ hq => by simp [ht, Function.update_noteq hq])
  simp only [ht, Function.update_same, h] at hx
  simp only [placedSum, ht] at hx ⊢
  simp at hx
  omega

/-- Removing a placed cell lowers the placed-cost sum by its cost. -/
theorem placedSum_remove {s : EconState} {p : Cell} (h : s.grid p = true)
    (t : EconState) (ht : t.grid = Function.update s.grid p false) :
    placedSum t + costOf p.1 = placedSum s := by
  have hx := sum_map_exchange cellsRowMajor
    (fun q => if s.grid q then costOf q.1 else 0)
    (fun q => if t.grid q then costOf q.1 else 0)
    p (cellsRowMajor_complete p) cellsRowMajor_nodup
    (fun q _ hq => by simp [ht, Function.update_noteq hq])
  simp only [ht, Function.update_same, h] at hx
  simp only [placedSum, ht] at hx ⊢
  simp at hx
  omega

/-- The budget bookkeeping invariant maintained by the editing operations. -/
def EconInv (s : EconState) : Prop :=
  placedSum s + s.alienBudget = s.alienBudgetMax

theorem econInv_toggle {s : EconState} (h : EconInv s) (r : Fin 3) (c : Fin 16) :
    EconInv (toggleGridCell s r c) := by
  unfold EconInv at *
  have hco : costOf ((r, c) : Cell).1 = costOf r := rfl
  by_cases hg : s.grid (r, c)
  · have hrm := placedSum_remove (p := (r, c)) hg (toggleGridCell s r c)
      (by simp [toggleGridCell, hg])
    rw [hco] at hrm
    have hb : (toggleGridCell s r c).alienBudget
        = min (s.alienBudget + costOf r) s.alienBudgetMax := by
      simp [toggleGridCell, hg]
    have hm : (toggleGridCell s r c).alienBudgetMax = s.alienBudgetMax := by
      simp [toggleGridCell, hg]
    omega
  · by_cases hc : s.alienBudget < costOf r
    · have ht : toggleGridCell s r c = { s with budgetShakeTimer := 20 } := by
        simp [toggleGridCell, hg, hc]
      rw [ht]
      simpa [placedSum] using h
    · have hpl := placedSum_place (p := (r, c)) (by simpa using hg) (toggleGridCell s r c)
        (by simp [toggleGridCell, hg, hc])
      rw [hco] at hpl
      have hb : (toggleGridCell s r c).alienBudget = s.alienBudget - costOf r := by
        simp [toggleGridCell, hg, hc]
      have hm : (toggleGridCell s r c).alienBudgetMax = s.alienBudgetMax := by
        simp [toggleGridCell, hg, hc]
      omega

theorem econInv_clear (s : EconState) : EconInv (clearGrid s) := by
  unfold EconInv
  simp [placedSum, clearGrid]

theorem econInv_presetFold (pattern : Cell → Bool) :
    ∀ (l : List Cell) (s : EconState), l.Nodup → (∀ p ∈ l, s.grid p = false) →
      EconInv s → EconInv (l.foldl (loadPresetCell pattern) s) := by
  intro l
  induction l with
  | nil => intro s _ _ h; simpa using h
  | cons a t ih =>
    intro s hnd hfalse h
    simp only [List.foldl_cons]
    by_cases hp : pattern a
    · by_cases hc : costOf a.1 ≤ s.alienBudget
      · have hstep : loadPresetCell pattern s a =
            { s with
              grid := Function.update s.grid a true
              aliens := s.aliens ++ [mkAlien a.1 a.2 (s.evolvedCells a)]
              alienBudget := s.alienBudget - costOf a.1 } := by
          simp [loadPresetCell, hp, hc]
        refine ih _ (List.nodup_cons.mp hnd).2 ?_ ?_
        · intro q hq
          have hqa : q ≠ a := fun hqa => (List.nodup_cons.mp hnd).1 (hqa ▸ hq)
          rw [hstep]
          simpa [Function.update_noteq hqa] using hfalse q (List.mem_cons_of_mem a hq)
        · unfold EconInv at *
          have hpl := placedSum_place (p := a) (hfalse a (List.mem_cons_self a t))
            (loadPresetCell pattern s a) (by rw [hstep])
          rw [hpl]
          have hb : (loadPresetCell pattern s a).alienBudget = s.alienBudget - costOf a.1 := by
            rw [hstep]
          have hm : (loadPresetCell pattern s a).alienBudgetMax = s.alienBudgetMax := by
            rw [hstep]
          rw [hb, hm]
          omega
      · have hstep : loadPresetCell pattern s a = s := by
          simp [loadPresetCell, hp, hc]
        rw [hstep]
        exact ih _ (List.nodup_cons.mp hnd).2
          (fun q hq => hfalse q (List.mem_cons_of_mem a hq)) h
    · have hstep : loadPresetCell pattern s a = s := by
        simp [loadPresetCell, hp]
      rw [hstep]
      exact ih _ (List.nodup_cons.mp hnd).2
        (fun q hq => hfalse q (List.mem_cons_of_mem a hq)) h

theorem econInv_preset (pattern : Cell → Bool) (s : EconState) :
    EconInv (loadPreset pattern s) := by
  unfold loadPreset
  exact econInv_presetFold pattern cellsColMajor (clearGrid s) cellsColMajor_nodup
    (fun p _ => rfl) (econInv_clear s)

/-! ## Claim C4: budget invariant -/

/-- Reachable state stacking placements across a wave advance: fill 8 budget at
wave 1, advance (budget reset to 10, grid retained), place one more bass cell. -/
def wave2Stacked : EconState :=
  toggleGridCell
    (selectCardPlain
      (toggleGridCell (toggleGridCell (toggleGridCell initState 0 0) 0 1) 1 0))
    0 2

/-- **C4 counterexample**: the invariant `placedSum ≤ alienBudgetMax` fails on a
state reachable through the public operations: after filling the wave-1 budget
(cost 3+3+2 = 8) and advancing to wave 2 (cap 10, budget reset, pattern
retained), one more placement yields `placedSum = 11 > 10 = alienBudgetMax`. -/
theorem budget_invariant_counterexample :
    ¬ (∀ s : EconState, ReachableFull s → placedSum s ≤ s.alienBudgetMax) := by
  intro h
  have hr : ReachableFull wave2Stacked :=
    .toggle 0 2 (.card (.toggle 1 0 (.toggle 0 1 (.toggle 0 0 .init))))
  have hle := h wave2Stacked hr
  revert hle
  decide

/-- **C4 amended**: in every state reachable through the pattern-editing
operations alone (`toggleGridCell`, `loadPreset`, `clearGrid`), the placed-cost
sum never exceeds `alienBudgetMax`; indeed `placedSum + alienBudget =
alienBudgetMax` there.  A wave advance or restart resets the budget while
retaining the grid, after which the bound can fail. -/
theorem budget_invariant_edit_reachable (s : EconState) (h : ReachableEdit s) :
    placedSum s + s.alienBudget = s.alienBudgetMax
      ∧ placedSum s ≤ s.alienBudgetMax := by
  have hinv : EconInv s := by
    induction h with
    | init => unfold EconInv; decide
    | toggle r c _ ih => exact econInv_toggle ih r c
    | preset pattern _ _ => exact econInv_preset pattern _
    | clear _ _ => exact econInv_clear _
  exact ⟨hinv, by unfold EconInv at hinv; omega⟩

theorem budget_invariant_edit_reachable_witness :
    placedSum initState + initState.alienBudget = initState.alienBudgetMax
      ∧ placedSum initState ≤ initState.alienBudgetMax :=
  budget_invariant_edit_reachable initState .init

/-! ## Claim C7: refund on removal -/

/-- A state with a placed hi-hat cell and a full budget (as left behind by a
wave advance that retained the pattern): the refund clamp makes removal free. -/
def refundBad : EconState :=
  { initState with
    grid := fun p => decide (p = ((2 : Fin 3), (0 : Fin 16)))
    alienBudget := 10
    alienBudgetMax := 10
    currentWave := 2 }

/-- **C7 counterexample**: removing a placed cell does *not* always increase
`alienBudget` by `cost[row]`: the refund is clamped at `alienBudgetMax`, so at
a full budget the refund is 0. -/
theorem refund_exact_counterexample :
    ¬ (∀ (s : EconState) (r : Fin 3) (c : Fin 16), s.grid (r, c) = true →
        (toggleGridCell s r c).alienBudget = s.alienBudget + costOf r) := by
  intro h
  have := h refundBad 2 0 (by decide)
  revert this
  decide

/-- **C7 amended**: removal refunds the cost capped at the budget cap,
`budget := min (budget + cost[row]) alienBudgetMax`; consequently placing a
cell and then removing it is a round-trip returning `alienBudget` to its prior
value whenever the placement was affordable and the budget did not exceed the
cap (which holds in every reachable state). -/
theorem refund_capped_roundtrip (s : EconState) (row : Fin 3) (col : Fin 16) :
    (s.grid (row, col) = true →
      (toggleGridCell s row col).alienBudget
        = min (s.alienBudget + costOf row) s.alienBudgetMax)
  ∧ (s.grid (row, col) = false → costOf row ≤ s.alienBudget →
      s.alienBudget ≤ s.alienBudgetMax →
      (toggleGridCell (toggleGridCell s row col) row col).alienBudget
        = s.alienBudget) := by
  constructor
  · intro h
    simp [toggleGridCell, h]
  · intro h hc hm
    have hno : ¬ (s.alienBudget < costOf row) := by omega
    have hstep : toggleGridCell s row col =
        { s with
          grid := Function.update s.grid (row, col) true
          aliens := s.aliens ++ [mkAlien row col (s.evolvedCells (row, col))]
          alienBudget := s.alienBudget - costOf row } := by
      simp [toggleGridCell, h, hno]
    rw [hstep]
    simp [toggleGridCell, Function.update_same]
    omega

theorem refund_capped_roundtrip_witness :
    ((toggleGridCell refundBad 2 0).alienBudget
        = min (refundBad.alienBudget + costOf 2) refundBad.alienBudgetMax)
  ∧ ((toggleGridCell (toggleGridCell initState 0 0) 0 0).alienBudget
        = initState.alienBudget) :=
  ⟨(refund_capped_roundtrip refundBad 2 0).1 (by decide),
   (refund_capped_roundtrip initState 0 0).2 rfl (by decide) (by decide)⟩

/-! ## Claim C8: budget reset on wave advance -/

/-- **C8**: on every wave advance via `selectCard` — whatever the chosen card
does to the grid — the cap is recomputed as `min 24 (8 + (newWave - 1) * 2)`
and the available budget is reset to exactly that cap. -/
theorem selectCard_budget_reset (cardEffect : (Cell → Bool) → Cell → Bool)
    (s : EconState) :
    (selectCardGen cardEffect s).currentWave = s.currentWave + 1
  ∧ (selectCardGen cardEffect s).alienBudgetMax
      = min 24 (8 + (s.currentWave + 1 - 1) * 2)
  ∧ (selectCardGen cardEffect s).alienBudget
      = (selectCardGen cardEffect s).alienBudgetMax :=
  ⟨rfl, rfl, rfl⟩

/-! ## Claim C10: rejected placement is atomic -/

/-- **C10**: when the cell is empty and the budget cannot cover the row cost,
`toggleGridCell` changes nothing but the transient shake timer. -/
theorem toggle_reject_atomic (s : EconState) (row : Fin 3) (col : Fin 16)
    (h1 : s.grid (row, col) = false) (h2 : s.alienBudget < costOf row) :
    toggleGridCell s row col = { s with budgetShakeTimer := 20 } := by
  simp [toggleGridCell, h1, h2]

theorem toggle_reject_atomic_witness :
    toggleGridCell { initState with alienBudget := 0 } 0 0
      = { { initState with alienBudget := 0 } with budgetShakeTimer := 20 } :=
  toggle_reject_atomic { initState with alienBudget := 0 } 0 0 rfl (by decide)

/-! ## Claim C3: wave-scaling table -/

/-- **C3**: `updateAIForWave` is exactly the claimed finite lookup: waves 1–4
give (1500, .3, 1), (1200, .4, 1), (900, .5, 1), (600, .65, 1); waves
divisible by 5 give the boss override (400, .8, 2); any other wave ≥ 10 gives
the berserk override (200, .9, 3); every remaining wave gives (350, .85, 2);
`defenderMaxHP = 60 + (wave - 1) * 15` for every wave ≥ 2 and 60 at wave 1. -/
theorem updateAIForWave_table (w : Nat) (hw : 1 ≤ w) :
    updateAIForWave 1 = ⟨1500, 3/10, 1, 60⟩
  ∧ updateAIForWave 2 = ⟨1200, 4/10, 1, 75⟩
  ∧ updateAIForWave 3 = ⟨900, 5/10, 1, 90⟩
  ∧ updateAIForWave 4 = ⟨600, 65/100, 1, 105⟩
  ∧ (w % 5 = 0 →
      updateAIForWave w = ⟨400, 8/10, 2, 60 + (w - 1) * 15⟩)
  ∧ (w % 5 ≠ 0 → 10 ≤ w →
      updateAIForWave w = ⟨200, 9/10, 3, 60 + (w - 1) * 15⟩)
  ∧ (w % 5 ≠ 0 → w < 10 → 5 ≤ w →
      updateAIForWave w = ⟨350, 85/100, 2, 60 + (w - 1) * 15⟩)
  ∧ (2 ≤ w → (updateAIForWave w).defenderMaxHP = 60 + (w - 1) * 15) := by
  refine ⟨rfl, rfl, rfl, rfl, ?_, ?_, ?_, ?_⟩
  · intro h5
    have h1 : ¬ (w = 1) := by omega
    have h2 : ¬ (w ≤ 2) := by omega
    have h3 : ¬ (w = 3) := by omega
    have h4 : ¬ (w = 4) := by omega
    simp [updateAIForWave, h1, h2, h3, h4, h5]
  · intro h5 h10
    have h1 : ¬ (w = 1) := by omega
    have h2 : ¬ (w ≤ 2) := by omega
    have h3 : ¬ (w = 3) := by omega
    have h4 : ¬ (w = 4) := by omega
    simp [updateAIForWave, h1, h2, h3, h4, h5, h10]
  · intro h5 h10 h5le
    have h1 : ¬ (w = 1) := by omega
    have h2 : ¬ (w ≤ 2) := by omega
    have h3 : ¬ (w = 3) := by omega
    have h4 : ¬ (w = 4) := by omega
    have hn10 : ¬ (10 ≤ w) := by omega
    simp [updateAIForWave, h1, h2, h3, h4, h5, hn10]
  · intro h2w
    rcases Nat.lt_or_ge w 5 with hlt | hge
    · interval_cases w <;> decide
    · have h1 : ¬ (w = 1) := by omega
      have h2 : ¬ (w ≤ 2) := by omega
      have h3 : ¬ (w = 3) := by omega
      have h4 : ¬ (w = 4) := by omega
      by_cases h5 : w % 5 = 0
      · simp [updateAIForWave, h1, h2, h3, h4, h5]
      · by_cases h10 : 10 ≤ w
        · simp [updateAIForWave, h1, h2, h3, h4, h5, h10]
        · simp [updateAIForWave, h1, h2, h3, h4, h5, h10]

theorem updateAIForWave_table_witness :
    updateAIForWave 7 = ⟨350, 85/100, 2, 150⟩ :=
  ((updateAIForWave_table 7 (by decide)).2.2.2.2.2.2.1
    (by decide) (by decide) (by decide))

/-! ## Wave-phase state machine

Embedding of the phase logic of `Game.update` together with `Game.waveComplete`
and `Game.gameLost`.  One call of `update` is one frame; the per-frame
nondeterminism (which projectiles reach the defender unshielded, how many
fire-zone burn ticks apply, whether the step timer elapsed) is supplied as
`FrameInput`.  Fields not affecting phase, loop, step or HP are omitted.
-/

inductive Phase where
  | playing
  | prepare
  | complete
  | cardpick
  | gameover
deriving DecidableEq, Repr

/-- The slice of `Game` state driving the wave-phase machine. -/
structure UState where
  wavePhase : Phase
  phaseTimer : Nat
  currentWave : Nat
  currentLoop : Nat
  loopsPerWave : Nat
  currentStep : Fin 16
  defenderHP : Int
  defenderMaxHP : Int
  gameOver : Bool
deriving DecidableEq, Repr

/-- Per-frame inputs to the phase-relevant part of `Game.update`. -/
structure FrameInput where
  /-- Fire-zone burn ticks landing this frame (2 damage each, napalm upgrade). -/
  burnTicks : Nat
  /-- Damages of alien projectiles that hit the unshielded defender, in order. -/
  hits : List Nat
  /-- Whether `currentTime - lastStepTime >= stepInterval` this frame. -/
  stepElapsed : Bool
deriving DecidableEq, Repr

/-- `Game.waveComplete()`: HP and max HP bumped for the next wave, phase to
cardpick (score bonus and card generation omitted; projectiles are cleared,
which the caller models by dropping the remaining hits). -/
def waveComplete (s : UState) : UState :=
  { s with
    defenderMaxHP := 60 + s.currentWave * 15
    defenderHP := 60 + s.currentWave * 15
    wavePhase := .cardpick
    phaseTimer := 0 }

/-- `Game.gameLost()`. -/
def gameLost (s : UState) : UState :=
  { s with wavePhase := .gameover, gameOver := true }

/-- One alien projectile hitting the defender (`update`, lines 1931-1995):
damage is applied and the win check fires immediately; once the phase has left
`playing` the remaining projectiles are gone (cleared by `waveComplete`). -/
def hitDefender (s : UState) (d : Nat) : UState :=
  if s.wavePhase = .playing then
    let s1 := { s with defenderHP := s.defenderHP - d }
    if s1.defenderHP ≤ 0 then waveComplete { s1 with defenderHP := 0 } else s1
  else s

/-- The sequencer-step block of `Game.update` (lines 2097-2140): advance the
step, bump the loop on wrap-around, and run the loop-complete check.  Note the
check runs regardless of the phase reached earlier in the same frame. -/
def seqAdvance (s : UState) : UState :=
  let stepNext : Fin 16 := s.currentStep + 1
  let s1 := { s with currentStep := stepNext }
  if stepNext = 0 then
    let s2 := { s1 with currentLoop := s1.currentLoop + 1 }
    if s2.currentLoop > s2.loopsPerWave then
      if s2.defenderHP > 0 then gameLost s2 else s2
    else s2  -- respawnAliens: no phase/loop/HP effect
  else s1

/-- One frame of `Game.update`, phase slice, mirroring the if/else-if chain of
lines 1655-1682.  The `prepare`/`complete` timers and the `cardpick`/`gameover`
early returns come first; in `playing`, fire-zone burn (no defeat check!)
precedes the projectile hits, and the sequencer block runs last. -/
def updateFrame (s : UState) (inp : FrameInput) : UState :=
  if s.wavePhase = .prepare then
    if s.phaseTimer + 1 ≥ 180 then
      { s with wavePhase := .playing, phaseTimer := 0, currentLoop := 1, currentStep := 0 }
    else { s with phaseTimer := s.phaseTimer + 1 }
  else if s.wavePhase = .cardpick then s
  else if s.wavePhase = .complete then
    if s.phaseTimer + 1 ≥ 120 then
      { s with currentWave := s.currentWave + 1, wavePhase := .prepare, phaseTimer := 0 }
    else { s with phaseTimer := s.phaseTimer + 1 }
  else if s.wavePhase = .gameover then s
  else
    let s1 := { s with defenderHP := s.defenderHP - 2 * inp.burnTicks }
    let s2 := inp.hits.foldl hitDefender s1
    if inp.stepElapsed then seqAdvance s2 else s2

/-- `Game.selectCard` phase effect: after applying the card and advancing the
wave, the phase becomes `prepare` (lines 910-913). -/
def selectCardFrame (s : UState) : UState :=
  { s with currentWave := s.currentWave + 1, wavePhase := .prepare, phaseTimer := 0 }

/-- The edges of the cycle asserted by the claim:
playing → prepare → (cardpick|complete) → playing. -/
def claimedEdge (p q : Phase) : Prop :=
  (p = .playing ∧ q = .prepare)
  ∨ (p = .prepare ∧ (q = .cardpick ∨ q = .complete))
  ∨ ((p = .cardpick ∨ p = .complete) ∧ q = .playing)

instance (p q : Phase) : Decidable (claimedEdge p q) := by
  unfold claimedEdge
  infer_instance

/-- The edges the code actually takes (game over included):
playing → cardpick → prepare → playing, the vestigial complete → prepare,
and playing → gameover. -/
def actualEdge (p q : Phase) : Prop :=
  (p = .playing ∧ q = .cardpick)
  ∨ (p = .cardpick ∧ q = .prepare)
  ∨ (p = .complete ∧ q = .prepare)
  ∨ (p = .prepare ∧ q = .playing)
  ∨ (p = .playing ∧ q = .gameover)

instance (p q : Phase) : Decidable (actualEdge p q) := by
  unfold actualEdge
  infer_instance

/-! ### Hit-processing lemmas -/

theorem hitDefender_frozen {s : UState} (h : ¬ s.wavePhase = .playing) (d : Nat) :
    hitDefender s d = s := by
  simp [hitDefender, h]

theorem foldl_hitDefender_frozen {s : UState} (h : ¬ s.wavePhase = .playing) :
    ∀ l : List Nat, l.foldl hitDefender s = s := by
  intro l
  induction l with
  | nil => rfl
  | cons d rest ih => simp only [List.foldl_cons, hitDefender_frozen h, ih]

/-- Folding the projectile hits over a playing state: the wave completes
exactly when there is at least one hit and the total damage drives HP to 0
or below; otherwise the full damage is applied and the phase stays. -/
theorem foldl_hitDefender_playing (hits : List Nat) :
    ∀ s : UState, s.wavePhase = .playing →
      hits.foldl hitDefender s =
        if hits ≠ [] ∧ s.defenderHP - (hits.sum : Int) ≤ 0 then
          waveComplete { s with defenderHP := 0 }
        else
          { s with defenderHP := s.defenderHP - (hits.sum : Int) } := by
  induction hits with
  | nil =>
    intro s hs
    simp only [List.foldl_nil, ne_eq, not_true_eq_false, false_and, if_false]
    cases s
    simp
  | cons d rest ih =>
    intro s hs
    simp only [List.foldl_cons]
    by_cases hw : s.defenderHP - (d : Int) ≤ 0
    · have h1 : hitDefender s d = waveComplete { s with defenderHP := 0 } := by
        simp [hitDefender, hs, hw]
      rw [h1, foldl_hitDefender_frozen (by simp [waveComplete]) rest]
      have hcond : (d :: rest ≠ [] ∧ s.defenderHP - ((d :: rest).sum : Int) ≤ 0) := by
        refine ⟨List.cons_ne_nil d rest, ?_⟩
        simp only [List.sum_cons, Nat.cast_add]
        omega
      rw [if_pos hcond]
    · have h1 : hitDefender s d = { s with defenderHP := s.defenderHP - (d : Int) } := by
        simp [hitDefender, hs, hw]
      rw [h1, ih { s with defenderHP := s.defenderHP - (d : Int) } hs]
      by_cases hc : s.defenderHP - (d : Int) - (rest.sum : Int) ≤ 0
      · have hrne : rest ≠ [] := by
          intro he
          subst he
          simp at hc
          omega
        rw [if_pos ⟨hrne, hc⟩, if_pos ⟨List.cons_ne_nil d rest, by
          simp only [List.sum_cons, Nat.cast_add]; omega⟩]
      · rw [if_neg (by
            intro hx
            rcases hx with ⟨-, hx⟩
            exact hc hx),
          if_neg (by
            intro hx
            rcases hx with ⟨-, hx⟩
            simp only [List.sum_cons, Nat.cast_add] at hx
            omega)]
        have harith : s.defenderHP - (d : Int) - (rest.sum : Int)
            = s.defenderHP - (((d :: rest).sum : Nat) : Int) := by
          simp only [List.sum_cons, Nat.cast_add]
          ring
        rw [harith]

theorem fin16_succ_zero : ∀ c : Fin 16, (c + 1 = 0 ↔ c = 15) := by decide

/-- HP after the fire-zone burn ticks of a frame. -/
def hpAfterBurn (s : UState) (inp : FrameInput) : Int :=
  s.defenderHP - 2 * inp.burnTicks

/-- The frame wins the wave for the player: some projectile hit lands and the
accumulated damage drives HP to 0 or below. -/
def wonFrame (s : UState) (inp : FrameInput) : Prop :=
  inp.hits ≠ [] ∧ hpAfterBurn s inp - (inp.hits.sum : Int) ≤ 0

instance (s : UState) (inp : FrameInput) : Decidable (wonFrame s inp) := by
  unfold wonFrame
  infer_instance

/-- The frame closes the final pattern loop: the step timer elapsed on step 15
with all `loopsPerWave` loops then complete. -/
def lossWindow (s : UState) (inp : FrameInput) : Prop :=
  inp.stepElapsed = true ∧ s.currentStep = 15 ∧ s.loopsPerWave < s.currentLoop + 1

instance (s : UState) (inp : FrameInput) : Decidable (lossWindow s inp) := by
  unfold lossWindow
  infer_instance

/-- Raw HP at the end of a playing frame had no win fired: burn plus all hits. -/
def rawHP (s : UState) (inp : FrameInput) : Int :=
  s.defenderHP - 2 * inp.burnTicks - (inp.hits.sum : Int)

/-- The phase written by the sequencer block as a single equation. -/
theorem seqAdvance_phase_eq (t : UState) :
    (seqAdvance t).wavePhase =
      if t.currentStep = 15 ∧ t.loopsPerWave < t.currentLoop + 1 ∧ 0 < t.defenderHP
        then Phase.gameover else t.wavePhase := by
  unfold seqAdvance gameLost
  by_cases hcs : t.currentStep = 15
  · have h0 : t.currentStep + 1 = (0 : Fin 16) := (fin16_succ_zero t.currentStep).mpr hcs
    by_cases hl : t.loopsPerWave < t.currentLoop + 1
    · by_cases hhp : 0 < t.defenderHP
      · simp [h0, hl, hhp, hcs]
      · simp [h0, hl, hhp, hcs]
    · simp [h0, hl, hcs]
  · have h0 : ¬ (t.currentStep + 1 = (0 : Fin 16)) := fun he =>
      hcs ((fin16_succ_zero t.currentStep).mp he)
    simp [h0, hcs]

/-- The phase after a `playing` frame as a single equation: game over exactly
when the final loop closes with a live defender (the post-win HP reset
counting as live), wave won exactly when the hits drove HP to 0 outside that
window, otherwise still playing. -/
theorem updateFrame_playing_eq (s : UState) (inp : FrameInput)
    (h : s.wavePhase = .playing) :
    (updateFrame s inp).wavePhase =
      if inp.stepElapsed = true ∧ s.currentStep = 15 ∧ s.loopsPerWave < s.currentLoop + 1
          ∧ (wonFrame s inp ∨ 0 < rawHP s inp)
        then Phase.gameover
      else if wonFrame s inp then Phase.cardpick
      else Phase.playing := by
  obtain ⟨ph, pt, cw, cl, lw, cs, hp, mhp, go⟩ := s
  obtain ⟨bt, hits, se⟩ := inp
  simp only at h
  subst h
  simp only [updateFrame, wonFrame, hpAfterBurn, rawHP]
  rw [if_neg (by decide : ¬ (Phase.playing = Phase.prepare)),
    if_neg (by decide : ¬ (Phase.playing = Phase.cardpick)),
    if_neg (by decide : ¬ (Phase.playing = Phase.complete)),
    if_neg (by decide : ¬ (Phase.playing = Phase.gameover))]
  rw [foldl_hitDefender_playing hits _ rfl]
  dsimp only
  by_cases hwin : hits ≠ [] ∧ hp - 2 * (bt : Int) - (hits.sum : Int) ≤ 0
  · rw [if_pos hwin]
    by_cases hse : se = true
    · rw [if_pos hse, seqAdvance_phase_eq]
      dsimp only [waveComplete]
      by_cases hcs : cs = (15 : Fin 16)
      · by_cases hl : lw < cl + 1
        · rw [if_pos ⟨hcs, hl, by positivity⟩,
            if_pos ⟨hse, hcs, hl, Or.inl hwin⟩]
        · rw [if_neg (fun hx => hl hx.2.1),
            if_neg (fun hx => hl hx.2.2.1), if_pos hwin]
      · rw [if_neg (fun hx => hcs hx.1),
          if_neg (fun hx => hcs hx.2.1), if_pos hwin]
    · rw [if_neg hse, if_neg (fun hx => hse hx.1), if_pos hwin]
      rfl
  · rw [if_neg hwin]
    by_cases hse : se = true
    · rw [if_pos hse, seqAdvance_phase_eq]
      dsimp only
      by_cases hcs : cs = (15 : Fin 16)
      · by_cases hl : lw < cl + 1
        · by_cases hraw : (0 : Int) < hp - 2 * (bt : Int) - (hits.sum : Int)
          · rw [if_pos ⟨hcs, hl, hraw⟩, if_pos ⟨hse, hcs, hl, Or.inr hraw⟩]
          · rw [if_neg (fun hx => hraw hx.2.2),
              if_neg (by
                intro hx
                rcases hx.2.2.2 with hw | hr
                · exact hwin hw
                · exact hraw hr),
              if_neg hwin]
        · rw [if_neg (fun hx => hl hx.2.1),
            if_neg (fun hx => hl hx.2.2.1), if_neg hwin]
      · rw [if_neg (fun hx => hcs hx.1),
          if_neg (fun hx => hcs hx.2.1), if_neg hwin]
    · rw [if_neg hse, if_neg (fun hx => hse hx.1), if_neg hwin]

theorem updateFrame_prepare_phase (s : UState) (inp : FrameInput)
    (h : s.wavePhase = .prepare) :
    (updateFrame s inp).wavePhase = .playing
      ∨ (updateFrame s inp).wavePhase = .prepare := by
  by_cases ht : s.phaseTimer + 1 ≥ 180
  · left
    simp [updateFrame, h, ht]
  · right
    simp [updateFrame, h, ht]

theorem updateFrame_cardpick_eq (s : UState) (inp : FrameInput)
    (h : s.wavePhase = .cardpick) : updateFrame s inp = s := by
  simp [updateFrame, h]

theorem updateFrame_complete_phase (s : UState) (inp : FrameInput)
    (h : s.wavePhase = .complete) :
    (updateFrame s inp).wavePhase = .prepare
      ∨ (updateFrame s inp).wavePhase = .complete := by
  by_cases ht : s.phaseTimer + 1 ≥ 120
  · left
    simp [updateFrame, h, ht]
  · right
    simp [updateFrame, h, ht]

theorem updateFrame_gameover_eq (s : UState) (inp : FrameInput)
    (h : s.wavePhase = .gameover) : updateFrame s inp = s := by
  simp [updateFrame, h]

/-! ## Claim C5: the wave-phase cycle -/

/-- A prepare state whose 3-second timer elapses this frame. -/
def prepareTick : UState :=
  { wavePhase := .prepare, phaseTimer := 179, currentWave := 1, currentLoop := 1
    loopsPerWave := 8, currentStep := 0, defenderHP := 60, defenderMaxHP := 60
    gameOver := false }

/-- A frame with no hits, no burn, no sequencer step. -/
def idleInput : FrameInput := { burnTicks := 0, hits := [], stepElapsed := false }

/-- **C5 counterexample**: the update loop takes the transition
prepare → playing, which is not an edge of the claimed cycle
playing → prepare → (cardpick|complete) → playing. -/
theorem phase_cycle_counterexample :
    ¬ (∀ (s : UState) (inp : FrameInput),
        (updateFrame s inp).wavePhase ≠ s.wavePhase →
          (updateFrame s inp).wavePhase = .gameover
            ∨ claimedEdge s.wavePhase (updateFrame s inp).wavePhase) := by
  intro hclaim
  have hx := hclaim prepareTick idleInput (by decide)
  revert hx
  decide

/-- **C5 amended**: every phase transition of the update loop (and of
`selectCard`) is an edge of the cycle playing → cardpick → prepare → playing,
plus the vestigial complete → prepare edge and the terminal
playing → gameover edge; no transition ever targets the `complete` phase. -/
theorem phase_cycle_actual (s : UState) (inp : FrameInput) :
    ((updateFrame s inp).wavePhase ≠ s.wavePhase →
      actualEdge s.wavePhase (updateFrame s inp).wavePhase)
  ∧ ((updateFrame s inp).wavePhase = .complete → s.wavePhase = .complete)
  ∧ (s.wavePhase = .cardpick → actualEdge s.wavePhase (selectCardFrame s).wavePhase) := by
  cases hph : s.wavePhase with
  | playing =>
    have heq := updateFrame_playing_eq s inp hph
    refine ⟨?_, ?_, ?_⟩
    · intro hne
      rw [heq] at hne ⊢
      by_cases h1 : inp.stepElapsed = true ∧ s.currentStep = 15
          ∧ s.loopsPerWave < s.currentLoop + 1 ∧ (wonFrame s inp ∨ 0 < rawHP s inp)
      · rw [if_pos h1]
        decide
      · rw [if_neg h1] at hne ⊢
        by_cases h2 : wonFrame s inp
        · rw [if_pos h2]
          decide
        · rw [if_neg h2] at hne
          exact absurd rfl hne
    · intro hc
      rw [heq] at hc
      by_cases h1 : inp.stepElapsed = true ∧ s.currentStep = 15
          ∧ s.loopsPerWave < s.currentLoop + 1 ∧ (wonFrame s inp ∨ 0 < rawHP s inp)
      · rw [if_pos h1] at hc
        cases hc
      · rw [if_neg h1] at hc
        by_cases h2 : wonFrame s inp
        · rw [if_pos h2] at hc
          cases hc
        · rw [if_neg h2] at hc
          cases hc
    · intro hcp
      cases hcp
  | prepare =>
    refine ⟨?_, ?_, ?_⟩
    · intro hne
      rcases updateFrame_prepare_phase s inp hph with hq | hq
      · rw [hq]
        decide
      · rw [hq] at hne
        exact absurd rfl hne
    · intro hc
      rcases updateFrame_prepare_phase s inp hph with hq | hq <;> rw [hq] at hc <;> cases hc
    · intro hcp
      cases hcp
  | cardpick =>
    refine ⟨?_, ?_, ?_⟩
    · intro hne
      rw [updateFrame_cardpick_eq s inp hph] at hne
      exact absurd hph hne
    · intro hc
      rw [updateFrame_cardpick_eq s inp hph] at hc
      rw [hc] at hph
      cases hph
    · intro _
      exact Or.inr (Or.inl ⟨rfl, rfl⟩)
  | complete =>
    refine ⟨?_, ?_, ?_⟩
    · intro hne
      rcases updateFrame_complete_phase s inp hph with hq | hq
      · rw [hq]
        decide
      · rw [hq] at hne
        exact absurd rfl hne
    · intro _
      rfl
    · intro hcp
      cases hcp
  | gameover =>
    refine ⟨?_, ?_, ?_⟩
    · intro hne
      rw [updateFrame_gameover_eq s inp hph] at hne
      exact absurd hph hne
    · intro hc
      rw [updateFrame_gameover_eq s inp hph] at hc
      rw [hc] at hph
      cases hph
    · intro hcp
      cases hcp

theorem phase_cycle_actual_witness :
    actualEdge prepareTick.wavePhase (updateFrame prepareTick idleInput).wavePhase :=
  (phase_cycle_actual prepareTick idleInput).1 (by decide)

/-! ## Claim C6: how the playing phase ends -/

/-- A playing state at 2 HP taking a fire-zone burn tick and nothing else. -/
def burnState : UState :=
  { wavePhase := .playing, phaseTimer := 0, currentWave := 1, currentLoop := 1
    loopsPerWave := 8, currentStep := 0, defenderHP := 2, defenderMaxHP := 60
    gameOver := false }

/-- The frame input with one fire-zone burn tick only. -/
def burnInput : FrameInput := { burnTicks := 1, hits := [], stepElapsed := false }

/-- **C6 counterexample**: defender HP can reach 0 during a playing frame
without the wave completing: fire-zone burn damage (napalm upgrade) carries no
win check, so at 2 HP a burn tick leaves HP = 0 with the phase still playing. -/
theorem playing_end_instant_counterexample :
    ¬ (∀ (s : UState) (inp : FrameInput), s.wavePhase = .playing →
        0 < s.defenderHP → rawHP s inp ≤ 0 →
        (updateFrame s inp).wavePhase = .cardpick) := by
  intro hclaim
  have hx := hclaim burnState burnInput rfl (by decide) (by decide)
  revert hx
  decide

/-- **C6 amended**: a playing frame ends the phase only as cardpick or
gameover.  The win (cardpick) happens exactly when at least one projectile hit
lands and the accumulated frame damage drives HP to 0 or below, outside the
final-loop window — fire-zone burn alone never triggers it.  Game over happens
exactly when the sequencer closes the final loop with the defender alive at
the end of the frame (the post-win HP reset counting as alive), so never
mid-loop. -/
theorem playing_phase_endings (s : UState) (inp : FrameInput)
    (h : s.wavePhase = .playing) :
    ((updateFrame s inp).wavePhase = .playing
      ∨ (updateFrame s inp).wavePhase = .cardpick
      ∨ (updateFrame s inp).wavePhase = .gameover)
  ∧ ((updateFrame s inp).wavePhase = .cardpick ↔
      wonFrame s inp ∧ ¬ lossWindow s inp)
  ∧ ((updateFrame s inp).wavePhase = .gameover ↔
      lossWindow s inp ∧ (wonFrame s inp ∨ 0 < rawHP s inp)) := by
  have heq := updateFrame_playing_eq s inp h
  rw [heq]
  by_cases h1 : inp.stepElapsed = true ∧ s.currentStep = 15
      ∧ s.loopsPerWave < s.currentLoop + 1 ∧ (wonFrame s inp ∨ 0 < rawHP s inp)
  · rw [if_pos h1]
    refine ⟨Or.inr (Or.inr rfl), ?_, ?_⟩
    · constructor
      · intro hx
        cases hx
      · rintro ⟨-, hnl⟩
        exact absurd ⟨h1.1, h1.2.1, h1.2.2.1⟩ hnl
    · exact iff_of_true rfl ⟨⟨h1.1, h1.2.1, h1.2.2.1⟩, h1.2.2.2⟩
  · rw [if_neg h1]
    by_cases h2 : wonFrame s inp
    · rw [if_pos h2]
      refine ⟨Or.inr (Or.inl rfl), ?_, ?_⟩
      · refine iff_of_true rfl ⟨h2, fun hl => h1 ⟨hl.1, hl.2.1, hl.2.2, Or.inl h2⟩⟩
      · refine iff_of_false (by decide) ?_
        rintro ⟨hl, hd⟩
        exact h1 ⟨hl.1, hl.2.1, hl.2.2, hd⟩
    · rw [if_neg h2]
      refine ⟨Or.inl rfl, ?_, ?_⟩
      · refine iff_of_false (by decide) ?_
        rintro ⟨hw, -⟩
        exact h2 hw
      · refine iff_of_false (by decide) ?_
        rintro ⟨hl, hd⟩
        exact h1 ⟨hl.1, hl.2.1, hl.2.2, hd⟩

/-- A winning frame: one 5-damage hit on a 5-HP defender, no step. -/
def winState : UState :=
  { wavePhase := .playing, phaseTimer := 0, currentWave := 1, currentLoop := 1
    loopsPerWave := 8, currentStep := 3, defenderHP := 5, defenderMaxHP := 60
    gameOver := false }

def winInput : FrameInput := { burnTicks := 0, hits := [5], stepElapsed := false }

theorem playing_phase_endings_witness :
    ((updateFrame winState winInput).wavePhase = .playing
      ∨ (updateFrame winState winInput).wavePhase = .cardpick
      ∨ (updateFrame winState winInput).wavePhase = .gameover)
  ∧ ((updateFrame winState winInput).wavePhase = .cardpick ↔
      wonFrame winState winInput ∧ ¬ lossWindow winState winInput)
  ∧ ((updateFrame winState winInput).wavePhase = .gameover ↔
      lossWindow winState winInput ∧ (wonFrame winState winInput ∨ 0 < rawHP winState winInput)) :=
  playing_phase_endings winState winInput rfl

/-! ## Step sequencer

Embedding of the drum-sequence block of `Game.update` (lines 2097-2171) and
the `stepInterval` formula kept in sync with the BPM control (constructor line
191 and every BPM-change handler).  Wall-clock time is a rational input.
-/

/-- `this.stepInterval = (60 / this.bpm) * 1000 / 4`. -/
def stepIntervalOf (bpm : ℚ) : ℚ := 60 / bpm * 1000 / 4

/-- An alien as seen by the sequencer firing loop. -/
structure SeqAlien where
  row : Fin 3
  col : Fin 16
  alive : Bool
deriving DecidableEq, Repr

/-- The sequencer state slice. -/
structure SeqState where
  currentStep : Fin 16
  lastStepTime : ℚ
  bpm : ℚ
  grid : Fin 3 → Fin 16 → Bool
  aliens : List SeqAlien
deriving Repr

/-- The drum-sequence block of one `update` frame at wall-clock `now`:
if the interval elapsed, advance the step, record the time, and fire every
row whose grid cell at the new step holds a living alien.  Returns the new
state and the list of rows that play their sound and shoot. -/
def seqFrame (s : SeqState) (now : ℚ) : SeqState × List (Fin 3) :=
  if now - s.lastStepTime ≥ stepIntervalOf s.bpm then
    let stepNext : Fin 16 := s.currentStep + 1
    let fired := (List.finRange 3).filter fun row =>
      s.grid row stepNext &&
        s.aliens.any fun a => decide (a.row = row) && decide (a.col = stepNext) && a.alive
    ({ s with currentStep := stepNext, lastStepTime := now }, fired)
  else (s, [])

/-- **C9**: the sequencer advances the beat counter by one modulo 16 exactly
when the wall-clock time since the previous step reaches
`stepInterval = (60 / bpm) * 1000 / 4`, and on such a step a row plays its
sound and fires iff its grid cell at the current step is occupied by a living
alien; otherwise nothing advances and nothing fires. -/
theorem sequencer_step_spec (s : SeqState) (now : ℚ) :
    stepIntervalOf s.bpm = 60 / s.bpm * 1000 / 4
  ∧ (stepIntervalOf s.bpm ≤ now - s.lastStepTime →
      (seqFrame s now).1.currentStep = s.currentStep + 1
      ∧ (seqFrame s now).1.lastStepTime = now
      ∧ ∀ row : Fin 3, row ∈ (seqFrame s now).2 ↔
          (s.grid row (s.currentStep + 1) = true
            ∧ ∃ a ∈ s.aliens, a.row = row ∧ a.col = s.currentStep + 1 ∧ a.alive = true))
  ∧ (¬ stepIntervalOf s.bpm ≤ now - s.lastStepTime →
      (seqFrame s now).1 = s ∧ (seqFrame s now).2 = []) := by
  refine ⟨rfl, ?_, ?_⟩
  · intro h
    have hcond : now - s.lastStepTime ≥ stepIntervalOf s.bpm := h
    refine ⟨by simp [seqFrame, if_pos hcond], by simp [seqFrame, if_pos hcond], ?_⟩
    intro row
    simp only [seqFrame, if_pos hcond, List.mem_filter, List.any_eq_true,
      Bool.and_eq_true, decide_eq_true_eq]
    constructor
    · rintro ⟨-, hg, a, ha, ⟨⟨har, hac⟩, hal⟩⟩
      exact ⟨hg, a, ha, har, hac, hal⟩
    · rintro ⟨hg, a, ha, har, hac, hal⟩
      exact ⟨List.mem_finRange row, hg, a, ha, ⟨⟨har, hac⟩, hal⟩⟩
  · intro h
    have hcond : ¬ (now - s.lastStepTime ≥ stepIntervalOf s.bpm) := h
    exact ⟨by simp [seqFrame, if_neg hcond], by simp [seqFrame, if_neg hcond]⟩

/-- Concrete sequencer state: 120 BPM, a snare on the next step with its alien
alive, a hi-hat cell occupied but its alien dead. -/
def seqSample : SeqState :=
  { currentStep := 4
    lastStepTime := 1000
    bpm := 120
    grid := fun r c => decide ((r = 1 ∧ c = 5) ∨ (r = 2 ∧ c = 5))
    aliens := [{ row := 1, col := 5, alive := true }, { row := 2, col := 5, alive := false }] }

theorem sequencer_step_spec_witness :
    (seqFrame seqSample 1125).1.currentStep = seqSample.currentStep + 1
  ∧ (seqFrame seqSample 1125).1.lastStepTime = 1125
  ∧ ∀ row : Fin 3, row ∈ (seqFrame seqSample 1125).2 ↔
      (seqSample.grid row (seqSample.currentStep + 1) = true
        ∧ ∃ a ∈ seqSample.aliens, a.row = row ∧ a.col = seqSample.currentStep + 1
            ∧ a.alive = true) :=
  (sequencer_step_spec seqSample 1125).2.1 (by norm_num [stepIntervalOf, seqSample])

/-! ## Weapon damage model

Embedding of `Game.alienShoot` (lines 1481-1634) and the crossfire score
bonus applied when a projectile hits the defender (lines 1931-1947).
-/

/-- An alien as seen by `alienShoot` (`row` is a plain number: rows 0..2 exist
in the 3-row grid, and the row-3 branch of `alienShoot` is dead code). -/
structure ShootAlien where
  row : Nat
  col : Fin 16
  x : ℚ
  y : ℚ
  alive : Bool
  evolved : Bool
deriving DecidableEq, Repr

inductive ProjType where
  | cannon
  | burst
  | homing
deriving DecidableEq, Repr

/-- An alien projectile as pushed by `alienShoot`. -/
structure AlienProj where
  ptype : ProjType
  x : ℚ
  y : ℚ
  speed : ℚ
  damage : ℤ
  aliensOnStep : Nat
deriving DecidableEq, Repr

/-- `aliensOnStep`: living aliens sharing the shooter column. -/
def occOf (aliens : List ShootAlien) (sh : ShootAlien) : Nat :=
  (aliens.filter fun a => decide (a.col = sh.col) && a.alive).length

/-- Is some living alien on (absolute) column `c`? -/
def colOccupied (aliens : List ShootAlien) (c : Nat) : Bool :=
  aliens.any fun a => decide (a.col.val = c) && a.alive

/-- SILENCE check: two empty columns immediately before the shooter. -/
def hasSilence (aliens : List ShootAlien) (sh : ShootAlien) : Bool :=
  decide (2 ≤ sh.col.val) && !colOccupied aliens (sh.col.val - 1)
    && !colOccupied aliens (sh.col.val - 2)

/-- `damageMultiplier`: ×1.5 SALVO (3+ in column), ×1.3 SYNCOPATION (odd
column), ×2.0 SILENCE. -/
def damageMultiplier (aliens : List ShootAlien) (sh : ShootAlien) : ℚ :=
  (if 3 ≤ occOf aliens sh then 3/2 else 1)
    * (if sh.col.val % 2 = 1 then 13/10 else 1)
    * (if hasSilence aliens sh then 2 else 1)

/-- `Game.alienShoot(alien)`: the projectiles pushed for one firing alien.
Per-row base damage with occupancy tiers, boss ×1.5 (floored), strategy
multiplier (floored), evolved +2; speeds scaled by doubleTime and boss. -/
def alienShoot (aliens : List ShootAlien) (sh : ShootAlien)
    (isBoss doubleTime : Bool) : List AlienProj :=
  let occ := occOf aliens sh
  let mult := damageMultiplier aliens sh
  let speedMul : ℚ := (if doubleTime then 3/2 else 1) * (if isBoss then 13/10 else 1)
  if sh.row = 0 then
    -- Bass - Heavy Cannon
    let base0 : ℤ := if occ = 3 then 18 else if occ = 2 then 15 else 12
    let base1 : ℤ := if isBoss then ⌊(base0 : ℚ) * (3/2)⌋ else base0
    let dmg : ℤ := ⌊(base1 : ℚ) * mult⌋ + (if sh.evolved then 2 else 0)
    [⟨.cannon, sh.x, sh.y, 2 * speedMul, dmg, occ⟩]
  else if sh.row = 1 then
    -- Snare - Burst Fire (3 bullets)
    let base0 : ℤ := if 2 ≤ occ then 4 else 3
    let base1 : ℤ := if isBoss then ⌊(base0 : ℚ) * (3/2)⌋ else base0
    let dmg : ℤ := ⌊(base1 : ℚ) * mult⌋ + (if sh.evolved then 2 else 0)
    (List.range 3).map fun i =>
      ⟨.burst, sh.x + ((i : ℚ) - 1) * 8, sh.y - i * 6, (4 + i * (5/10)) * speedMul, dmg, occ⟩
  else if sh.row = 2 then
    -- Hi-hat - Homing Missile
    let base0 : ℤ := if occ = 3 then 10 else if occ = 2 then 8 else 6
    let base1 : ℤ := if isBoss then ⌊(base0 : ℚ) * (3/2)⌋ else base0
    let dmg : ℤ := ⌊(base1 : ℚ) * mult⌋ + (if sh.evolved then 2 else 0)
    [⟨.homing, sh.x, sh.y, 3 * speedMul, dmg, occ⟩]
  else if sh.row = 3 then
    -- 4th row - same as snare burst (dead code: the grid has 3 rows)
    let base0 : ℤ := if 2 ≤ occ then 4 else 3
    let base1 : ℤ := if isBoss then ⌊(base0 : ℚ) * (3/2)⌋ else base0
    let dmg : ℤ := ⌊(base1 : ℚ) * mult⌋ + (if sh.evolved then 2 else 0)
    (List.range 3).map fun i =>
      ⟨.burst, sh.x + ((i : ℚ) - 1) * 8, sh.y - i * 6, (4 + i * (5/10)) * speedMul, dmg, occ⟩
  else []

/-- The score update when an alien projectile hits the defender:
`score += damage`, plus the crossfire bonus by column occupancy at fire time. -/
def hitScoreGain (score : ℤ) (p : AlienProj) : ℤ :=
  score + p.damage
    + (if p.aliensOnStep = 2 then 10 else if p.aliensOnStep = 3 then 30 else 0)

/-- The flat per-row damage tiers asserted by the claim. -/
def tierClaim (row occ : Nat) : ℤ :=
  if row = 0 then (if occ = 3 then 18 else if occ = 2 then 15 else 12)
  else if row = 1 ∨ row = 3 then (if 2 ≤ occ then 4 else 3)
  else if row = 2 then (if occ = 3 then 10 else if occ = 2 then 8 else 6)
  else 0

/-- A solo bass alien on column 1 (odd ⇒ syncopation multiplier fires). -/
def syncAlien : ShootAlien :=
  { row := 0, col := 1, x := 100, y := 140, alive := true, evolved := false }

/-- **C2 counterexample**: projectile damage is not the flat tier: a solo
bass alien on an odd column (no boss, no evolution, no crossfire) deals
`⌊12 * 1.3⌋ = 15`, not the claimed solo tier 12 — the syncopation multiplier
(and likewise the ≥3-occupancy SALVO ×1.5 multiplier) is multiplicative. -/
theorem alienShoot_flat_tier_counterexample :
    ¬ (∀ (aliens : List ShootAlien) (sh : ShootAlien) (isBoss doubleTime : Bool),
        ∀ p ∈ alienShoot aliens sh isBoss doubleTime,
          p.damage = tierClaim sh.row (occOf aliens sh)) := by
  intro hclaim
  have hx := hclaim [syncAlien] syncAlien false false _ (List.mem_singleton.mpr rfl)
  norm_num [alienShoot, occOf, damageMultiplier, hasSilence, colOccupied,
    tierClaim, syncAlien] at hx

/-- **C2 amended**: every projectile of a firing alien carries damage
`⌊(boss-floored tier) * damageMultiplier⌋ + evolved bonus`: the claimed
occupancy tiers are the base, but they are further scaled multiplicatively by
the SALVO (≥3 in column, ×1.5), SYNCOPATION (odd column, ×1.3) and SILENCE
(×2.0) strategy multipliers and the boss ×1.5 (each floored), plus +2 when
evolved; `aliensOnStep` is recorded on the projectile, and on a hit the score
gains damage plus the flat +10 (two occupants) / +30 (three) crossfire
bonus exactly as claimed. -/
theorem alienShoot_damage_formula (aliens : List ShootAlien) (sh : ShootAlien)
    (isBoss doubleTime : Bool) :
    (∀ p ∈ alienShoot aliens sh isBoss doubleTime,
        p.damage
          = ⌊(((if isBoss then ⌊(tierClaim sh.row (occOf aliens sh) : ℚ) * (3/2)⌋
                else tierClaim sh.row (occOf aliens sh)) : ℤ) : ℚ)
                * damageMultiplier aliens sh⌋
              + (if sh.evolved then 2 else 0)
        ∧ p.aliensOnStep = occOf aliens sh)
  ∧ (∀ (score : ℤ) (p : AlienProj),
      hitScoreGain score p
        = score + p.damage
          + (if p.aliensOnStep = 2 then 10 else if p.aliensOnStep = 3 then 30 else 0)) := by
  refine ⟨?_, fun score p => rfl⟩
  intro p hp
  simp only [alienShoot] at hp
  by_cases h0 : sh.row = 0
  · rw [if_pos h0, List.mem_singleton] at hp
    subst hp
    have ht : tierClaim sh.row (occOf aliens sh)
        = if occOf aliens sh = 3 then 18
          else if occOf aliens sh = 2 then 15 else 12 := by
      simp [tierClaim, h0]
    rw [ht]
    exact ⟨rfl, rfl⟩
  · rw [if_neg h0] at hp
    by_cases h1 : sh.row = 1
    · rw [if_pos h1, List.mem_map] at hp
      obtain ⟨i, -, hip⟩ := hp
      subst hip
      have ht : tierClaim sh.row (occOf aliens sh)
          = if 2 ≤ occOf aliens sh then 4 else 3 := by
        simp [tierClaim, h0, h1]
      rw [ht]
      exact ⟨rfl, rfl⟩
    · rw [if_neg h1] at hp
      by_cases h2 : sh.row = 2
      · rw [if_pos h2, List.mem_singleton] at hp
        subst hp
        have ht : tierClaim sh.row (occOf aliens sh)
            = if occOf aliens sh = 3 then 10
              else if occOf aliens sh = 2 then 8 else 6 := by
          simp [tierClaim, h0, h1, h2]
        rw [ht]
        exact ⟨rfl, rfl⟩
      · rw [if_neg h2] at hp
        by_cases h3 : sh.row = 3
        · rw [if_pos h3, List.mem_map] at hp
          obtain ⟨i, -, hip⟩ := hp
          subst hip
          have ht : tierClaim sh.row (occOf aliens sh)
              = if 2 ≤ occOf aliens sh then 4 else 3 := by
            simp [tierClaim, h0, h1, h2, h3]
          rw [ht]
          exact ⟨rfl, rfl⟩
        · rw [if_neg h3] at hp
          exact absurd hp (List.not_mem_nil p)

theorem alienShoot_damage_formula_witness :
    ∀ p ∈ alienShoot [syncAlien] syncAlien false false,
        p.damage
          = ⌊(((if false then ⌊(tierClaim syncAlien.row (occOf [syncAlien] syncAlien) : ℚ) * (3/2)⌋
                else tierClaim syncAlien.row (occOf [syncAlien] syncAlien)) : ℤ) : ℚ)
                * damageMultiplier [syncAlien] syncAlien⌋
              + (if syncAlien.evolved then 2 else 0)
        ∧ p.aliensOnStep = occOf [syncAlien] syncAlien :=
  (alienShoot_damage_formula [syncAlien] syncAlien false false).1

/-! ## Defender AI dodge heuristic

Embedding of the movement decision of `Game.updateAI` (lines 1134-1227):
threat map from incoming projectiles (plus the AI-adaptation predictive
threat), current zone, the ±4 best-zone scan, and the move direction.  The
defender then moves one step of `defender.speed` in that direction
(`moveDefender`, wall-clamped); the power-up block below the move cannot
change the direction of an already-executed move.  Canvas width 800,
`zoneWidth = 800 / 16 = 50`, defender width 40, so `defenderCenter =
defenderX + 20`; `atLeftWall ⇔ x ≤ 5`, `atRightWall ⇔ x ≥ 800 - 40 - 5`.
-/

/-- An alien projectile as seen by the dodge scan. -/
structure Proj where
  x : ℚ
  y : ℚ
  speed : ℚ
deriving DecidableEq, Repr

/-- An alien as seen by the hunting branch. -/
structure DodgeAlien where
  x : ℚ
  alive : Bool
deriving DecidableEq, Repr

/-- The slice of `Game` state read by the `updateAI` movement decision. -/
structure AIState where
  defenderX : ℚ
  defenderY : ℚ
  projectiles : List Proj
  aiAdapting : Bool
  aiColumnHeatmap : Nat → ℚ
  aliens : List DodgeAlien

/-- `timeToImpact = (defender.y - proj.y) / proj.speed`. -/
def timeToImpact (defY : ℚ) (p : Proj) : ℚ := (defY - p.y) / p.speed

/-- `zone = Math.floor(proj.x / zoneWidth)`. -/
def projZone (p : Proj) : ℤ := ⌊p.x / 50⌋

/-- One projectile added into the threat map (lines 1146-1157): urgency
`1/(t+1)` to its zone, half to each neighbouring zone, neighbour range
clamped to `[0, 15]`. -/
def addProjThreat (defY : ℚ) (tm : Fin 16 → ℚ) (p : Proj) : Fin 16 → ℚ :=
  fun z =>
    let t := timeToImpact defY p
    if 0 < t ∧ t < 50 then
      let zone := projZone p
      let urgency := 1 / (t + 1)
      if max 0 (zone - 1) ≤ (z : ℤ) ∧ (z : ℤ) ≤ min 15 (zone + 1) then
        tm z + urgency * (if (z : ℤ) = zone then 1 else 1/2)
      else tm z
    else tm z

/-- `Math.floor((col * cellWidth + cellWidth/2) / zoneWidth)`. -/
def zoneOfCol (col : Nat) : ℤ := ⌊((col : ℚ) * 50 + 50/2) / 50⌋

/-- One heatmap column added into the threat map when the AI is adapting
(lines 1160-1171): predictive threat `heat * 0.3`, spread like a projectile. -/
def addAdaptThreat (heat : Nat → ℚ) (tm : Fin 16 → ℚ) (col : Nat) : Fin 16 → ℚ :=
  fun z =>
    if 0 < heat col then
      let zone := zoneOfCol col
      let predictive := heat col * (3/10)
      if max 0 (zone - 1) ≤ (z : ℤ) ∧ (z : ℤ) ≤ min 15 (zone + 1) then
        tm z + predictive * (if (z : ℤ) = zone then 1 else 1/2)
      else tm z
    else tm z

/-- The full threat map of one `updateAI` call. -/
def threatMap (s : AIState) : Fin 16 → ℚ :=
  let base := s.projectiles.foldl (addProjThreat s.defenderY) (fun _ => 0)
  if s.aiAdapting then
    (List.range 16).foldl (addAdaptThreat s.aiColumnHeatmap) base
  else base

/-- `currentZone = Math.floor(defenderCenter / zoneWidth)`. -/
def currentZone (s : AIState) : ℤ := ⌊(s.defenderX + 20) / 50⌋

/-- `threatMap[z] || 0`: out-of-range lookups read as 0. -/
def threatAt (s : AIState) (z : ℤ) : ℚ :=
  if h : 0 ≤ z ∧ z < 16 then threatMap s ⟨z.toNat, by omega⟩ else 0

/-- The score of a candidate zone (lines 1185-1193):
threat ×3, distance ×0.1, corner penalty 0.5 on zones ≤1 or ≥14,
center bias ×0.02. -/
def zoneScore (s : AIState) (cz z : ℤ) : ℚ :=
  threatAt s z * 3 + ((|z - cz| : ℤ) : ℚ) * (1/10)
    + (if z ≤ 1 ∨ 14 ≤ z then 1/2 else 0)
    + ((|z - 8| : ℤ) : ℚ) * (1/50)

/-- The scanned zones `max 0 (cz-4) .. min 15 (cz+4)`, in ascending order. -/
def searchZones (cz : ℤ) : List ℤ :=
  (List.range (min 15 (cz + 4) - max 0 (cz - 4) + 1).toNat).map
    fun (i : ℕ) => max 0 (cz - 4) + (i : ℤ)

/-- One step of the best-zone scan: strict improvement replaces the best
(`bestScore` starts at Infinity, encoded as `none`). -/
def scanStep (s : AIState) (cz : ℤ) (acc : ℤ × Option ℚ) (z : ℤ) : ℤ × Option ℚ :=
  match acc.2 with
  | none => (z, some (zoneScore s cz z))
  | some b => if zoneScore s cz z < b then (z, some (zoneScore s cz z)) else acc

/-- The zone chosen by the scan (initial `bestZone = currentZone`). -/
def bestZone (s : AIState) (cz : ℤ) : ℤ :=
  ((searchZones cz).foldl (scanStep s cz) (cz, none)).1

/-- The hunting/centering branch taken when the current threat is ≤ 0.3
(lines 1205-1224): head toward the nearest living alien when it is more than
10px away, else drift toward the canvas center when more than 100px off. -/
def nearStep (center : ℚ) (acc : Option (DodgeAlien × ℚ)) (a : DodgeAlien) :
    Option (DodgeAlien × ℚ) :=
  if a.alive then
    let d := |a.x - center|
    match acc with
    | none => some (a, d)
    | some best => if d < best.2 then some (a, d) else acc
  else acc

def huntDir (s : AIState) : ℤ :=
  let center := s.defenderX + 20
  let drift : ℤ := if 100 < |center - 400| then (if center < 400 then 1 else -1) else 0
  match s.aliens.foldl (nearStep center) none with
  | none => drift
  | some best => if 10 < best.2 then (if center < best.1.x then 1 else -1) else drift

/-- The movement direction decided by one `updateAI` call (the defender then
moves one `defender.speed` step in this direction, wall-clamped). -/
def aiMoveDir (s : AIState) : ℤ :=
  let cz := currentZone s
  if 3/10 < threatAt s cz then
    let bz := bestZone s cz
    if bz < cz then -1
    else if cz < bz then 1
    else if s.defenderX ≤ 5 then 1
    else if 755 ≤ s.defenderX then -1
    else 0
  else huntDir s

/-! ### The claim-side heuristic, built from the words of the spec -/

/-- The claimed contribution of one projectile to a zone: urgency `1/(t+1)`
on its zone, half on each adjacent zone, when `0 < timeToImpact < 50`. -/
def specContrib (defY : ℚ) (p : Proj) (z : ℤ) : ℚ :=
  let t := (defY - p.y) / p.speed
  if 0 < t ∧ t < 50 then
    let zone := ⌊p.x / 50⌋
    let urgency := 1 / (t + 1)
    if z = zone then urgency
    else if z = zone - 1 ∨ z = zone + 1 then urgency * (1/2)
    else 0
  else 0

/-- The claimed threat of a zone: the sum of the projectile contributions. -/
def specThreat (s : AIState) (z : ℤ) : ℚ :=
  (s.projectiles.map fun p => specContrib s.defenderY p z).sum

/-- The zones within ±4 of the current zone (among the 16 zones). -/
def windowList (cz : ℤ) : List ℤ :=
  ((List.range 9).map fun (i : ℕ) => cz - 4 + (i : ℤ)).filter
    fun z => decide (0 ≤ z) && decide (z ≤ 15)

/-- The claimed score `threat*3 + |z-cz|*0.1 + (0.5 if z ∈ {0,1,14,15})
+ |z-8|*0.02`. -/
def specScore (s : AIState) (cz z : ℤ) : ℚ :=
  specThreat s z * 3 + ((|z - cz| : ℤ) : ℚ) * (1/10)
    + (if z = 0 ∨ z = 1 ∨ z = 14 ∨ z = 15 then 1/2 else 0)
    + ((|z - 8| : ℤ) : ℚ) * (1/50)

/-- Moving one step toward a zone. -/
def dirToward (cz z : ℤ) : ℤ := if z < cz then -1 else if cz < z then 1 else 0

/-- The dodge heuristic exactly as the claim states it: whenever the
(projectile-built) threat of the current zone exceeds 0.3, the move direction
is one step toward a zone minimizing the claimed score over the ±4 window. -/
def ClaimDodge : Prop :=
  ∀ s : AIState, 3/10 < specThreat s (currentZone s) →
    ∃ z : ℤ, z ∈ windowList (currentZone s)
      ∧ (∀ w ∈ windowList (currentZone s),
          specScore s (currentZone s) z ≤ specScore s (currentZone s) w)
      ∧ aiMoveDir s = dirToward (currentZone s) z

/-! ### C1 concrete states -/

/-- A cannon shell one frame above the defender in zone 8. -/
def projA : Proj := { x := 420, y := 548, speed := 2 }

/-- A slower projectile in zone 6. -/
def projB : Proj := { x := 320, y := 546, speed := 1 }

/-- A column heatmap with surviving aliens recorded on columns 10 and 11. -/
def adaptHeat : Nat → ℚ := fun c => if c = 10 ∨ c = 11 then 2 else 0

/-- An adaptation-active state (reached from loop 4 of any wave on): the
defender sits in zone 8 under fire, and the heatmap poisons zones 9-12. -/
def adaptState : AIState :=
  { defenderX := 400, defenderY := 550, projectiles := [projA, projB]
    aiAdapting := true, aiColumnHeatmap := adaptHeat, aliens := [] }

theorem adaptState_currentZone : currentZone adaptState = 8 := by
  show (⌊(adaptState.defenderX + 20) / 50⌋ : ℤ) = 8
  rw [show adaptState.defenderX = 400 from rfl, Int.floor_eq_iff]
  norm_num

theorem projA_zone : projZone { x := 420, y := 548, speed := 2 } = 8 := by
  rw [projZone, Int.floor_eq_iff]
  norm_num

theorem projB_zone : projZone { x := 320, y := 546, speed := 1 } = 6 := by
  rw [projZone, Int.floor_eq_iff]
  norm_num

theorem zoneOfCol_ten : zoneOfCol 10 = 10 := by
  rw [zoneOfCol, Int.floor_eq_iff]
  norm_num

theorem zoneOfCol_eleven : zoneOfCol 11 = 11 := by
  rw [zoneOfCol, Int.floor_eq_iff]
  norm_num

theorem range16_eq : List.range 16 = [0,1,2,3,4,5,6,7,8,9,10,11,12,13,14,15] := rfl

theorem adaptThreat4 : threatAt adaptState 4 = 0 := by
  rw [threatAt, dif_pos (show (0:ℤ) ≤ 4 ∧ (4:ℤ) < 16 by norm_num)]
  norm_num [threatMap, adaptState, range16_eq, addAdaptThreat, addProjThreat,
    adaptHeat, timeToImpact, projA_zone, projB_zone, zoneOfCol_ten,
    zoneOfCol_eleven, projA, projB]

theorem adaptThreat5 : threatAt adaptState 5 = 1/10 := by
  rw [threatAt, dif_pos (show (0:ℤ) ≤ 5 ∧ (5:ℤ) < 16 by norm_num)]
  norm_num [threatMap, adaptState, range16_eq, addAdaptThreat, addProjThreat,
    adaptHeat, timeToImpact, projA_zone, projB_zone, zoneOfCol_ten,
    zoneOfCol_eleven, projA, projB]

theorem adaptThreat6 : threatAt adaptState 6 = 1/5 := by
  rw [threatAt, dif_pos (show (0:ℤ) ≤ 6 ∧ (6:ℤ) < 16 by norm_num)]
  norm_num [threatMap, adaptState, range16_eq, addAdaptThreat, addProjThreat,
    adaptHeat, timeToImpact, projA_zone, projB_zone, zoneOfCol_ten,
    zoneOfCol_eleven, projA, projB]

theorem adaptThreat7 : threatAt adaptState 7 = 7/20 := by
  rw [threatAt, dif_pos (show (0:ℤ) ≤ 7 ∧ (7:ℤ) < 16 by norm_num)]
  norm_num [threatMap, adaptState, range16_eq, addAdaptThreat, addProjThreat,
    adaptHeat, timeToImpact, projA_zone, projB_zone, zoneOfCol_ten,
    zoneOfCol_eleven, projA, projB]

theorem adaptThreat8 : threatAt adaptState 8 = 1/2 := by
  rw [threatAt, dif_pos (show (0:ℤ) ≤ 8 ∧ (8:ℤ) < 16 by norm_num)]
  norm_num [threatMap, adaptState, range16_eq, addAdaptThreat, addProjThreat,
    adaptHeat, timeToImpact, projA_zone, projB_zone, zoneOfCol_ten,
    zoneOfCol_eleven, projA, projB]

theorem adaptThreat9 : threatAt adaptState 9 = 11/20 := by
  rw [threatAt, dif_pos (show (0:ℤ) ≤ 9 ∧ (9:ℤ) < 16 by norm_num)]
  norm_num [threatMap, adaptState, range16_eq, addAdaptThreat, addProjThreat,
    adaptHeat, timeToImpact, projA_zone, projB_zone, zoneOfCol_ten,
    zoneOfCol_eleven, projA, projB]

theorem adaptThreat10 : threatAt adaptState 10 = 9/10 := by
  rw [threatAt, dif_pos (show (0:ℤ) ≤ 10 ∧ (10:ℤ) < 16 by norm_num)]
  norm_num [threatMap, adaptState, range16_eq, addAdaptThreat, addProjThreat,
    adaptHeat, timeToImpact, projA_zone, projB_zone, zoneOfCol_ten,
    zoneOfCol_eleven, projA, projB]

theorem adaptThreat11 : threatAt adaptState 11 = 9/10 := by
  rw [threatAt, dif_pos (show (0:ℤ) ≤ 11 ∧ (11:ℤ) < 16 by norm_num)]
  norm_num [threatMap, adaptState, range16_eq, addAdaptThreat, addProjThreat,
    adaptHeat, timeToImpact, projA_zone, projB_zone, zoneOfCol_ten,
    zoneOfCol_eleven, projA, projB]

theorem adaptThreat12 : threatAt adaptState 12 = 3/10 := by
  rw [threatAt, dif_pos (show (0:ℤ) ≤ 12 ∧ (12:ℤ) < 16 by norm_num)]
  norm_num [threatMap, adaptState, range16_eq, addAdaptThreat, addProjThreat,
    adaptHeat, timeToImpact, projA_zone, projB_zone, zoneOfCol_ten,
    zoneOfCol_eleven, projA, projB]

theorem adaptScore4 : zoneScore adaptState 8 4 = 12/25 := by
  rw [zoneScore, adaptThreat4]
  norm_num

theorem adaptScore5 : zoneScore adaptState 8 5 = 33/50 := by
  rw [zoneScore, adaptThreat5]
  norm_num

theorem adaptScore6 : zoneScore adaptState 8 6 = 21/25 := by
  rw [zoneScore, adaptThreat6]
  norm_num

theorem adaptScore7 : zoneScore adaptState 8 7 = 117/100 := by
  rw [zoneScore, adaptThreat7]
  norm_num

theorem adaptScore8 : zoneScore adaptState 8 8 = 3/2 := by
  rw [zoneScore, adaptThreat8]
  norm_num

theorem adaptScore9 : zoneScore adaptState 8 9 = 177/100 := by
  rw [zoneScore, adaptThreat9]
  norm_num

theorem adaptScore10 : zoneScore adaptState 8 10 = 147/50 := by
  rw [zoneScore, adaptThreat10]
  norm_num

theorem adaptScore11 : zoneScore adaptState 8 11 = 153/50 := by
  rw [zoneScore, adaptThreat11]
  norm_num

theorem adaptScore12 : zoneScore adaptState 8 12 = 69/50 := by
  rw [zoneScore, adaptThreat12]
  norm_num

theorem adaptState_bestZone : bestZone adaptState 8 = 4 := by
  rw [bestZone, show searchZones 8 = [4,5,6,7,8,9,10,11,12] from by decide]
  norm_num [List.foldl, scanStep, adaptScore4, adaptScore5, adaptScore6,
    adaptScore7, adaptScore8, adaptScore9, adaptScore10, adaptScore11,
    adaptScore12]

theorem adaptState_moveDir : aiMoveDir adaptState = -1 := by
  simp only [aiMoveDir, adaptState_currentZone, adaptThreat8]
  rw [if_pos (by norm_num : (3:ℚ)/10 < 1/2), adaptState_bestZone,
    if_pos (by norm_num : (4:ℤ) < 8)]

theorem adaptState_specThreat8 : specThreat adaptState 8 = 1/2 := by
  norm_num [specThreat, specContrib, adaptState, projA, projB,
    projA_zone, projB_zone]

theorem adaptSpecScore4 : specScore adaptState 8 4 = 12/25 := by
  rw [specScore]
  norm_num [specThreat, specContrib, adaptState, projA, projB,
    projA_zone, projB_zone]

theorem adaptSpecScore5 : specScore adaptState 8 5 = 33/50 := by
  rw [specScore]
  norm_num [specThreat, specContrib, adaptState, projA, projB,
    projA_zone, projB_zone]

theorem adaptSpecScore6 : specScore adaptState 8 6 = 21/25 := by
  rw [specScore]
  norm_num [specThreat, specContrib, adaptState, projA, projB,
    projA_zone, projB_zone]

theorem adaptSpecScore7 : specScore adaptState 8 7 = 117/100 := by
  rw [specScore]
  norm_num [specThreat, specContrib, adaptState, projA, projB,
    projA_zone, projB_zone]

theorem adaptSpecScore10 : specScore adaptState 8 10 = 6/25 := by
  rw [specScore]
  norm_num [specThreat, specContrib, adaptState, projA, projB,
    projA_zone, projB_zone]

/-- **C1 counterexample**: with AI adaptation active (loop 4 of any wave on),
the predictive heatmap threat also feeds the threat map, so the dodge decision
does not follow the projectile-only heuristic of the claim: in `adaptState`
the claim-built threat map has its unique best zone at 10 (score 0.24) to the
right of the defender, yet the code moves left (toward zone 4), because the
heatmap poisons zones 9-12. -/
theorem dodge_claim_counterexample : ¬ ClaimDodge := by
  intro hclaim
  obtain ⟨z, hzw, hzmin, hdir⟩ := hclaim adaptState (by
    rw [adaptState_currentZone, adaptState_specThreat8]
    norm_num)
  rw [adaptState_currentZone] at hzw hzmin hdir
  rw [adaptState_moveDir] at hdir
  have h10 := hzmin 10 (by decide)
  have hzlt : z < 8 := by
    rcases lt_trichotomy z 8 with h | h | h
    · exact h
    · rw [h] at hdir
      norm_num [dirToward] at hdir
    · rw [dirToward, if_neg (by omega), if_pos h] at hdir
      norm_num at hdir
  have hzmem : z = 4 ∨ z = 5 ∨ z = 6 ∨ z = 7 := by
    rw [show windowList 8 = [4,5,6,7,8,9,10,11,12] from by decide] at hzw
    simp at hzw
    omega
  rcases hzmem with rfl | rfl | rfl | rfl
  · rw [adaptSpecScore4, adaptSpecScore10] at h10
    norm_num at h10
  · rw [adaptSpecScore5, adaptSpecScore10] at h10
    norm_num at h10
  · rw [adaptSpecScore6, adaptSpecScore10] at h10
    norm_num at h10
  · rw [adaptSpecScore7, adaptSpecScore10] at h10
    norm_num at h10

/-! ### C1 amended: the dodge decision characterized -/

theorem addProjThreat_eq (defY : ℚ) (tm : Fin 16 → ℚ) (p : Proj) (z : Fin 16) :
    addProjThreat defY tm p z = tm z + specContrib defY p (z : ℤ) := by
  unfold addProjThreat specContrib timeToImpact projZone
  have hz0 : 0 ≤ (z : ℤ) ∧ (z : ℤ) ≤ 15 := by
    have := z.isLt
    omega
  by_cases ht : 0 < (defY - p.y) / p.speed ∧ (defY - p.y) / p.speed < 50
  · rw [if_pos ht, if_pos ht]
    by_cases hz : (z : ℤ) = ⌊p.x / 50⌋
    · simp only [if_pos
        (show max 0 (⌊p.x / 50⌋ - 1) ≤ (z : ℤ) ∧ (z : ℤ) ≤ min 15 (⌊p.x / 50⌋ + 1)
          by omega), if_pos hz]
      ring
    · rw [if_neg hz]
      by_cases hz1 : (z : ℤ) = ⌊p.x / 50⌋ - 1 ∨ (z : ℤ) = ⌊p.x / 50⌋ + 1
      · simp only [if_pos
          (show max 0 (⌊p.x / 50⌋ - 1) ≤ (z : ℤ) ∧ (z : ℤ) ≤ min 15 (⌊p.x / 50⌋ + 1)
            by omega), if_pos hz1, if_neg hz]
      · rw [if_neg
          (show ¬ (max 0 (⌊p.x / 50⌋ - 1) ≤ (z : ℤ) ∧ (z : ℤ) ≤ min 15 (⌊p.x / 50⌋ + 1))
            by omega), if_neg hz1]
        ring
  · rw [if_neg ht, if_neg ht]
    ring

theorem foldl_addProjThreat_eq (defY : ℚ) :
    ∀ (ps : List Proj) (tm : Fin 16 → ℚ) (z : Fin 16),
      (ps.foldl (addProjThreat defY) tm) z
        = tm z + (ps.map fun p => specContrib defY p (z : ℤ)).sum := by
  intro ps
  induction ps with
  | nil => intro tm z; simp
  | cons p rest ih =>
    intro tm z
    simp only [List.foldl_cons, List.map_cons, List.sum_cons]
    rw [ih (addProjThreat defY tm p) z, addProjThreat_eq]
    ring

/-- With adaptation off, the threat map is exactly the claimed per-projectile
urgency sum. -/
theorem threatMap_eq_specThreat {s : AIState} (hA : s.aiAdapting = false)
    (z : Fin 16) : threatMap s z = specThreat s (z : ℤ) := by
  unfold threatMap specThreat
  rw [hA]
  simp only [Bool.false_eq_true, if_false]
  rw [foldl_addProjThreat_eq]
  simp

/-- The scan fold keeps the best-so-far score and ends on a minimizer. -/
theorem scanStep_foldl_spec (s : AIState) (cz : ℤ) :
    ∀ (l : List ℤ) (z0 : ℤ) (b0 : ℚ), b0 = zoneScore s cz z0 →
      ∃ zr, l.foldl (scanStep s cz) (z0, some b0) = (zr, some (zoneScore s cz zr))
        ∧ (zr = z0 ∨ zr ∈ l)
        ∧ zoneScore s cz zr ≤ b0
        ∧ ∀ w ∈ l, zoneScore s cz zr ≤ zoneScore s cz w := by
  intro l
  induction l with
  | nil =>
    intro z0 b0 hb
    subst hb
    exact ⟨z0, by simp, Or.inl rfl, le_refl _, by simp⟩
  | cons w rest ih =>
    intro z0 b0 hb
    simp only [List.foldl_cons]
    by_cases hlt : zoneScore s cz w < b0
    · have hstep : scanStep s cz (z0, some b0) w = (w, some (zoneScore s cz w)) := by
        simp [scanStep, hlt]
      rw [hstep]
      obtain ⟨zr, h1, h2, h3, h4⟩ := ih w (zoneScore s cz w) rfl
      refine ⟨zr, h1, ?_, le_trans h3 (le_of_lt hlt), ?_⟩
      · rcases h2 with rfl | hm
        · exact Or.inr (List.mem_cons_self zr rest)
        · exact Or.inr (List.mem_cons_of_mem w hm)
      · intro v hv
        rcases List.mem_cons.mp hv with rfl | hv2
        · exact h3
        · exact h4 v hv2
    · have hstep : scanStep s cz (z0, some b0) w = (z0, some b0) := by
        simp [scanStep, hlt]
      rw [hstep]
      obtain ⟨zr, h1, h2, h3, h4⟩ := ih z0 b0 hb
      refine ⟨zr, h1, ?_, h3, ?_⟩
      · rcases h2 with rfl | hm
        · exact Or.inl rfl
        · exact Or.inr (List.mem_cons_of_mem w hm)
      · intro v hv
        rcases List.mem_cons.mp hv with rfl | hv2
        · exact le_trans h3 (by rw [hb] at hlt ⊢; exact le_of_not_lt hlt)
        · exact h4 v hv2

/-- The zone chosen by the scan minimizes the code score over the scan range. -/
theorem bestZone_minimal (s : AIState) (cz : ℤ) (hne : searchZones cz ≠ []) :
    bestZone s cz ∈ searchZones cz
      ∧ ∀ w ∈ searchZones cz,
          zoneScore s cz (bestZone s cz) ≤ zoneScore s cz w := by
  obtain ⟨w, ws, hcons⟩ : ∃ w ws, searchZones cz = w :: ws := by
    cases hsz : searchZones cz with
    | nil => exact absurd hsz hne
    | cons a l => exact ⟨a, l, rfl⟩
  unfold bestZone
  rw [hcons]
  simp only [List.foldl_cons]
  have hstep : scanStep s cz (cz, none) w = (w, some (zoneScore s cz w)) := by
    simp [scanStep]
  rw [hstep]
  obtain ⟨zr, h1, h2, h3, h4⟩ := scanStep_foldl_spec s cz ws w (zoneScore s cz w) rfl
  rw [h1]
  constructor
  · rcases h2 with rfl | hm
    · exact List.mem_cons_self zr ws
    · exact List.mem_cons_of_mem w hm
  · intro v hv
    rcases List.mem_cons.mp hv with rfl | hv2
    · exact h3
    · exact h4 v hv2

theorem mem_searchZones_bounds {cz z : ℤ} (h : z ∈ searchZones cz) :
    0 ≤ z ∧ z ≤ 15 := by
  unfold searchZones at h
  obtain ⟨i, hi, hiz⟩ := List.mem_map.mp h
  rw [List.mem_range] at hi
  omega

/-- For an in-range current zone, the scanned range is exactly the claimed
±4 window over the 16 zones. -/
theorem searchZones_eq_windowList (cz : ℤ) (h0 : 0 ≤ cz) (h15 : cz ≤ 15) :
    searchZones cz = windowList cz := by
  interval_cases cz <;> decide

theorem currentZone_mem_range {s : AIState}
    (hT : 3/10 < threatAt s (currentZone s)) :
    0 ≤ currentZone s ∧ currentZone s < 16 := by
  by_contra hc
  rw [threatAt, dif_neg hc] at hT
  norm_num at hT

/-- With adaptation off, the code zone score is the claimed zone score. -/
theorem zoneScore_eq_specScore {s : AIState} (hA : s.aiAdapting = false)
    (cz z : ℤ) (h0 : 0 ≤ z) (h15 : z ≤ 15) :
    zoneScore s cz z = specScore s cz z := by
  unfold zoneScore specScore
  have hth : threatAt s z = specThreat s z := by
    rw [threatAt, dif_pos ⟨h0, by omega⟩, threatMap_eq_specThreat hA]
    simp [Int.toNat_of_nonneg h0]
  rw [hth]
  congr 2
  exact if_congr (by omega) rfl rfl

/-- **C1 amended**: when AI adaptation is inactive, the dodge decision does
follow the claimed heuristic: the threat map equals the claimed projectile
urgency sums, the chosen zone minimizes the claimed score over the ±4 window,
and the move direction is one step toward that zone — except that when the
chosen zone is the current zone the defender stays put unless it is pinned at
a wall (x ≤ 5 or x ≥ 755), in which case it steps away from the wall.  When
adaptation is active the threat map additionally contains the predictive
heatmap term (see the counterexample). -/
theorem dodge_decision_characterization (s : AIState)
    (hA : s.aiAdapting = false)
    (hT : 3/10 < threatAt s (currentZone s)) :
    (∀ z : Fin 16, threatMap s z = specThreat s (z : ℤ))
  ∧ bestZone s (currentZone s) ∈ windowList (currentZone s)
  ∧ (∀ w ∈ windowList (currentZone s),
      specScore s (currentZone s) (bestZone s (currentZone s))
        ≤ specScore s (currentZone s) w)
  ∧ aiMoveDir s =
      (if bestZone s (currentZone s) < currentZone s then -1
       else if currentZone s < bestZone s (currentZone s) then 1
       else if s.defenderX ≤ 5 then 1
       else if 755 ≤ s.defenderX then -1
       else 0) := by
  obtain ⟨hcz0, hcz16⟩ := currentZone_mem_range hT
  have hsw : searchZones (currentZone s) = windowList (currentZone s) :=
    searchZones_eq_windowList _ hcz0 (by omega)
  have hne : searchZones (currentZone s) ≠ [] := by
    have h1 := hcz0
    have h2 := hcz16
    set czv := currentZone s with hczv
    interval_cases czv <;> decide
  obtain ⟨hmem, hmin⟩ := bestZone_minimal s (currentZone s) hne
  have hbzb := mem_searchZones_bounds hmem
  refine ⟨fun z => threatMap_eq_specThreat hA z, ?_, ?_, ?_⟩
  · rw [← hsw]
    exact hmem
  · intro w hw
    have hw2 : w ∈ searchZones (currentZone s) := by
      rw [hsw]
      exact hw
    have hwb := mem_searchZones_bounds hw2
    rw [← zoneScore_eq_specScore hA _ _ hbzb.1 hbzb.2,
      ← zoneScore_eq_specScore hA _ _ hwb.1 hwb.2]
    exact hmin w hw2
  · rw [aiMoveDir]
    rw [if_pos hT]

/-- A plain dodge state: one projectile over zone 8, no adaptation. -/
def witState : AIState :=
  { defenderX := 400, defenderY := 550, projectiles := [projA]
    aiAdapting := false, aiColumnHeatmap := fun _ => 0, aliens := [] }

theorem witState_currentZone : currentZone witState = 8 := by
  show (⌊(witState.defenderX + 20) / 50⌋ : ℤ) = 8
  rw [show witState.defenderX = 400 from rfl, Int.floor_eq_iff]
  norm_num

theorem witState_threat8 : threatAt witState 8 = 1/2 := by
  rw [threatAt, dif_pos (show (0:ℤ) ≤ 8 ∧ (8:ℤ) < 16 by norm_num)]
  norm_num [threatMap, witState, addProjThreat, timeToImpact, projA_zone, projA]

theorem dodge_decision_characterization_witness :
    (∀ z : Fin 16, threatMap witState z = specThreat witState (z : ℤ))
  ∧ bestZone witState (currentZone witState) ∈ windowList (currentZone witState)
  ∧ (∀ w ∈ windowList (currentZone witState),
      specScore witState (currentZone witState)
          (bestZone witState (currentZone witState))
        ≤ specScore witState (currentZone witState) w)
  ∧ aiMoveDir witState =
      (if bestZone witState (currentZone witState) < currentZone witState then -1
       else if currentZone witState < bestZone witState (currentZone witState) then 1
       else if witState.defenderX ≤ 5 then 1
       else if 755 ≤ witState.defenderX then -1
       else 0) :=
  dodge_decision_characterization witState rfl
    (by rw [witState_currentZone, witState_threat8]; norm_num)

end GrooveGalaxy
